import Mathlib

/-!
Shallow embedding of the Mermaid ER diagram core of the repository:
the diagram parser (`src/parser/index.ts`), the SQL DDL generator
(`sqlGenerator.ts`) and the CRUD query builder (`queryBuilder.ts`),
together with theorems settling the specification claims.

Strings are modelled with Lean `String`; every operation used by the
embedding is implemented by structural recursion over `String.data`
so that concrete inputs evaluate inside the kernel.  JavaScript
semantics that matter (regex matching, `Map` insertion order,
truthiness, `undefined` stringification) are modelled explicitly.
-/

namespace MermaidER

/-- Character class of the JavaScript regex `\s` (also used by `trim`). -/
def jsWs (c : Char) : Bool :=
  c = ' ' || c = '\t' || c = '\n' || c = '\r' || c = '\x0b' || c = '\x0c' ||
  c = '\u00A0' || c = '\u1680' || ('\u2000' ≤ c && c ≤ '\u200A') ||
  c = '\u2028' || c = '\u2029' || c = '\u202F' || c = '\u205F' ||
  c = '\u3000' || c = '\uFEFF'

/-- JavaScript `String.prototype.trim`. -/
def jsTrim (s : String) : String :=
  ⟨((s.data.dropWhile jsWs).reverse.dropWhile jsWs).reverse⟩

/-- JavaScript `replace(/\s/g, '')`: every whitespace character removed. -/
def stripWsAll (s : String) : String :=
  ⟨s.data.filter (fun c => !jsWs c)⟩

/-- JavaScript `toLowerCase`, restricted to the ASCII range used here. -/
def strLower (s : String) : String := ⟨s.data.map Char.toLower⟩

/-- JavaScript `toUpperCase`, restricted to the ASCII range used here. -/
def strUpper (s : String) : String := ⟨s.data.map Char.toUpper⟩

/-- JavaScript `Array.prototype.join(sep)`. -/
def joinSep (sep : String) : List String → String
  | [] => ""
  | [s] => s
  | s :: rest => s ++ sep ++ joinSep sep rest

/-- JavaScript `String.prototype.split('\n')` on the character list. -/
def splitLinesAux : List Char → List (List Char)
  | [] => [[]]
  | c :: rest =>
    if c = '\n' then [] :: splitLinesAux rest
    else
      match splitLinesAux rest with
      | l :: ls => (c :: l) :: ls
      | [] => [[c]]

/-- JavaScript `input.split('\n')`. -/
def splitLines (s : String) : List String :=
  (splitLinesAux s.data).map (fun l => ⟨l⟩)

/-! ## Schema data model (`src/types/schema.ts`) -/

/-- Cardinality values in ER diagrams. -/
inductive Cardinality where
  | ZERO_OR_ONE
  | EXACTLY_ONE
  | ZERO_OR_MORE
  | ONE_OR_MORE
deriving DecidableEq

/-- Key types for attributes. -/
inductive AttributeKey where
  | PK
  | FK
  | UK
deriving DecidableEq

/-- An attribute of an entity. -/
structure Attribute where
  name : String
  type : String
  keys : List AttributeKey
  comment : Option String
deriving DecidableEq

/-- An entity in the ER diagram (`alias` in the source; `alias` is a Lean
keyword, so the field is called `aliasName` here). -/
structure Entity where
  name : String
  aliasName : Option String
  attributes : List Attribute
deriving DecidableEq

/-- A relationship between two entities. -/
structure Relationship where
  firstEntity : String
  secondEntity : String
  firstCardinality : Cardinality
  secondCardinality : Cardinality
  identifying : Bool
  label : String
deriving DecidableEq

/-- The complete database schema parsed from the ER diagram. -/
structure DatabaseSchema where
  entities : List Entity
  relationships : List Relationship
deriving DecidableEq

/-- Result of parsing an ER diagram. -/
structure ParseResult where
  success : Bool
  schema : Option DatabaseSchema
  errors : Option (List String)
deriving DecidableEq

/-- The `CARDINALITY_SYMBOLS` record of `schema.ts`, as an association list. -/
def cardinalitySymbolsList : List (String × Cardinality) :=
  [("|o", .ZERO_OR_ONE), ("o|", .ZERO_OR_ONE), ("||", .EXACTLY_ONE),
   ("\x7do", .ZERO_OR_MORE), ("o\x7b", .ZERO_OR_MORE),
   ("\x7d|", .ONE_OR_MORE), ("|\x7b", .ONE_OR_MORE)]

/-- Record lookup in `CARDINALITY_SYMBOLS`. -/
def cardinalitySymbols (key : String) : Option Cardinality :=
  (cardinalitySymbolsList.find? (fun p => p.1 == key)).map (·.2)

/-- `parseCardinality` of `src/parser/index.ts`. -/
def parseCardinality (symbol : String) : Cardinality :=
  let normalized := stripWsAll symbol
  if normalized = "|o" ∨ normalized = "o|" then .ZERO_OR_ONE
  else if normalized = "||" then .EXACTLY_ONE
  else if normalized = "\x7do" ∨ normalized = "o\x7b" ∨ normalized = "\x7bo" then .ZERO_OR_MORE
  else if normalized = "\x7d|" ∨ normalized = "|\x7b" ∨ normalized = "\x7b|" then .ONE_OR_MORE
  else (cardinalitySymbols normalized).getD .EXACTLY_ONE

/-- JavaScript `String.prototype.split(',')` on the character list. -/
def splitCommaAux : List Char → List (List Char)
  | [] => [[]]
  | c :: rest =>
    if c = ',' then [] :: splitCommaAux rest
    else
      match splitCommaAux rest with
      | l :: ls => (c :: l) :: ls
      | [] => [[c]]

/-- JavaScript `keyString.split(',')`. -/
def splitComma (s : String) : List String :=
  (splitCommaAux s.data).map (fun l => ⟨l⟩)

/-- `parseAttributeKeys` of `src/parser/index.ts`: split the captured key
string on commas, trim and uppercase the parts, keep PK/FK/UK. -/
def parseAttributeKeys (keyString : Option String) : List AttributeKey :=
  match keyString with
  | none => []
  | some s =>
    ((splitComma s).map (fun k => strUpper (jsTrim k))).filterMap (fun part =>
      if part = "PK" then some .PK
      else if part = "FK" then some .FK
      else if part = "UK" then some .UK
      else none)

/-- JavaScript `replace(/^"|"$/g, '')`: one leading and one trailing
plain double quote removed. -/
def stripQuotesPlain (s : String) : String :=
  let l := match s.data with
    | '"' :: t => t
    | l => l
  match l.reverse with
  | '"' :: t => ⟨t.reverse⟩
  | _ => ⟨l⟩

/-- JavaScript `replace(/^\\"|\\"$/g, '')`: one leading and one trailing
backslash-quote pair removed. -/
def stripQuotesEsc (s : String) : String :=
  let l := match s.data with
    | '\\' :: '"' :: t => t
    | l => l
  match l.reverse with
  | '"' :: '\\' :: t => ⟨t.reverse⟩
  | _ => ⟨l⟩

/-- `cleanEntityName` of `src/parser/index.ts`. -/
def cleanEntityName (name : String) : String :=
  stripQuotesEsc (stripQuotesPlain name)

/-! ## Line matchers

Each `PATTERNS` regex of `src/parser/index.ts` is modelled by a
deterministic matcher over the character list.  The regexes involved are
unambiguous except for one backtracking point (an entity name ending in
`o` directly followed by a cardinality token in a relationship line),
which is handled explicitly in `matchRelationship`. -/

/-- Character class `[a-zA-Z0-9_\-\[\]\(\)]` of the attribute type token. -/
def isTypeChar (c : Char) : Bool :=
  c.isAlpha || c.isDigit || c = '_' || c = '-' || c = '[' || c = ']' || c = '(' || c = ')'

/-- Character class `[a-zA-Z_]` starting an identifier. -/
def isNameStart (c : Char) : Bool := c.isAlpha || c = '_'

/-- Character class `[a-zA-Z0-9_-]` continuing an identifier. -/
def isNameChar (c : Char) : Bool := c.isAlphanum || c = '_' || c = '-'

/-- Regex `/^\s*$/` (`PATTERNS.EMPTY`). -/
def isEmptyLine (line : String) : Bool := line.data.all jsWs

/-- Regex `/^\s*%%/` (`PATTERNS.COMMENT`). -/
def isCommentLine (line : String) : Bool :=
  match line.data.dropWhile jsWs with
  | '%' :: '%' :: _ => true
  | _ => false

/-- Regex `/^\s*erDiagram\s*$/i` (`PATTERNS.ER_DIAGRAM_START`). -/
def isHeaderLine (line : String) : Bool :=
  ⟨(((strLower line).data.dropWhile jsWs).reverse.dropWhile jsWs).reverse⟩ = ("erdiagram" : String)

/-- Regex `/^\s*direction\s+(TB|BT|LR|RL)\s*$/i` (`PATTERNS.DIRECTION`). -/
def isDirectionLine (line : String) : Bool :=
  match (strLower line).data.dropWhile jsWs with
  | 'd' :: 'i' :: 'r' :: 'e' :: 'c' :: 't' :: 'i' :: 'o' :: 'n' :: rest =>
    let ws := rest.takeWhile jsWs
    let r1 := rest.dropWhile jsWs
    if ws.isEmpty then false
    else
      match r1 with
      | [a, b] => (a = 't' && b = 'b') || (a = 'b' && b = 't') || (a = 'l' && b = 'r') || (a = 'r' && b = 'l')
      | _ => false
  | _ => false

/-- Regex `/^\s*\}\s*$/` (`PATTERNS.ENTITY_BLOCK_END`). -/
def isBlockEndLine (line : String) : Bool :=
  match line.data.dropWhile jsWs with
  | '\x7d' :: rest => rest.all jsWs
  | _ => false

/-- One `PK`/`FK`/`UK` token of the attribute key group. -/
def keyTok : List Char → Option (List Char × List Char)
  | 'P' :: 'K' :: rest => some (['P', 'K'], rest)
  | 'F' :: 'K' :: rest => some (['F', 'K'], rest)
  | 'U' :: 'K' :: rest => some (['U', 'K'], rest)
  | _ => none

/-- The greedy `(?:\s*,\s*(?:PK|FK|UK))*` tail of the key group; returns the
consumed text and the rest.  `fuel` bounds the recursion; each iteration
consumes at least three characters, so `r.length + 1` fuel is exact. -/
def matchKeysMore : Nat → List Char → List Char × List Char
  | 0, r => ([], r)
  | fuel + 1, r =>
    let ws1 := r.takeWhile jsWs
    let r1 := r.dropWhile jsWs
    match r1 with
    | ',' :: r2 =>
      let ws2 := r2.takeWhile jsWs
      let r3 := r2.dropWhile jsWs
      match keyTok r3 with
      | some (k, r4) =>
        let (more, rest) := matchKeysMore fuel r4
        (ws1 ++ [','] ++ ws2 ++ k ++ more, rest)
      | none => ([], r)
    | _ => ([], r)

/-- The key group `(?:PK|FK|UK)(?:\s*,\s*(?:PK|FK|UK))*`; returns the
captured text and the rest. -/
def matchKeys (r : List Char) : Option (List Char × List Char) :=
  match keyTok r with
  | some (k, rest) =>
    let (more, rest2) := matchKeysMore (rest.length + 1) rest
    some (k ++ more, rest2)
  | none => none

/-- The quoted comment `"..."` followed by `\s*$`: content and nothing else. -/
def matchQuotedToEnd (r : List Char) : Option String :=
  match r with
  | '"' :: rest =>
    let content := rest.takeWhile (fun c => c ≠ '"')
    match rest.dropWhile (fun c => c ≠ '"') with
    | '"' :: tail => if tail.all jsWs then some ⟨content⟩ else none
    | _ => none
  | _ => none

/-- After the key group: either end of line (up to whitespace) or a
whitespace-separated quoted comment. -/
def matchCommentEnd (r : List Char) : Option (Option String) :=
  if r.isEmpty then some none
  else
    let ws := r.takeWhile jsWs
    let r1 := r.dropWhile jsWs
    if ws.isEmpty then none
    else if r1.isEmpty then some none
    else
      match matchQuotedToEnd r1 with
      | some c => some (some c)
      | none => none

/-- After the attribute name: the optional key group, the optional quoted
comment, and the end of the line. -/
def matchAttrTail (r : List Char) : Option (Option String × Option String) :=
  if r.isEmpty then some (none, none)
  else
    let ws := r.takeWhile jsWs
    let r1 := r.dropWhile jsWs
    if ws.isEmpty then none
    else if r1.isEmpty then some (none, none)
    else
      match matchKeys r1 with
      | some (ks, r2) =>
        match matchCommentEnd r2 with
        | some c => some (some ⟨ks⟩, c)
        | none => none
      | none =>
        match matchQuotedToEnd r1 with
        | some c => some (none, some c)
        | none => none

/-- Regex `PATTERNS.ATTRIBUTE`
`/^\s*([a-zA-Z][a-zA-Z0-9_\-\[\]\(\)]*)\s+(\*?[a-zA-Z_][a-zA-Z0-9_-]*)(?:\s+((?:PK|FK|UK)(?:\s*,\s*(?:PK|FK|UK))*))?(?:\s+"([^"]*)")?\s*$/`.
Returns the four captured groups (type, raw name, keys, comment). -/
def matchAttribute (line : String) : Option (String × String × Option String × Option String) :=
  let cs := line.data.dropWhile jsWs
  match cs with
  | [] => none
  | c :: _ =>
    if !c.isAlpha then none
    else
      let ty := cs.takeWhile isTypeChar
      let r1 := cs.dropWhile isTypeChar
      let ws1 := r1.takeWhile jsWs
      let r2 := r1.dropWhile jsWs
      if ws1.isEmpty then none
      else
        let (star, r3) := match r2 with
          | '*' :: rest => (['*'], rest)
          | _ => (([] : List Char), r2)
        match r3 with
        | [] => none
        | d :: _ =>
          if !isNameStart d then none
          else
            let nm := r3.takeWhile isNameChar
            let r4 := r3.dropWhile isNameChar
            match matchAttrTail r4 with
            | some (keysStr, comment) => some (⟨ty⟩, ⟨star ++ nm⟩, keysStr, comment)
            | none => none

/-- One entity-name token: an identifier or the escaped-quote form
`\\"[^"]+\\"`.  Returns the raw captured text and the rest. -/
def parseNameToken (r : List Char) : Option (List Char × List Char) :=
  match r with
  | '\\' :: '"' :: rest =>
    let content := rest.takeWhile (fun c => c ≠ '"')
    match rest.dropWhile (fun c => c ≠ '"') with
    | '"' :: tail =>
      match content.reverse with
      | '\\' :: mid => if mid.isEmpty then none else some ('\\' :: '"' :: content ++ ['"'], tail)
      | _ => none
    | _ => none
  | c :: rest =>
    if isNameStart c then some (c :: rest.takeWhile isNameChar, rest.dropWhile isNameChar)
    else none
  | [] => none

/-- Regex `PATTERNS.ENTITY_BLOCK_START`
`/^\s*([a-zA-Z_][a-zA-Z0-9_-]*|\\"[^"]+\\")(\s*\[([^\]]+)\])?\s*\{\s*$/`.
Returns the raw name and the optional alias. -/
def matchEntityBlockStart (line : String) : Option (String × Option String) :=
  let r := line.data.dropWhile jsWs
  match parseNameToken r with
  | none => none
  | some (nameTok, r1) =>
    let r2 := r1.dropWhile jsWs
    match r2 with
    | '[' :: r3 =>
      let al := r3.takeWhile (fun c => c ≠ ']')
      match r3.dropWhile (fun c => c ≠ ']') with
      | ']' :: r4 =>
        if al.isEmpty then none
        else
          match r4.dropWhile jsWs with
          | '\x7b' :: r6 => if r6.all jsWs then some (⟨nameTok⟩, some ⟨al⟩) else none
          | _ => none
      | _ => none
    | '\x7b' :: r6 => if r6.all jsWs then some (⟨nameTok⟩, none) else none
    | _ => none

/-- Regex `PATTERNS.STANDALONE_ENTITY`
`/^\s*([a-zA-Z_][a-zA-Z0-9_-]*|\\"[^"]+\\")(\s*\[([^\]]+)\])?\s*$/`. -/
def matchStandalone (line : String) : Option (String × Option String) :=
  let r := line.data.dropWhile jsWs
  match parseNameToken r with
  | none => none
  | some (nameTok, r1) =>
    let r2 := r1.dropWhile jsWs
    match r2 with
    | [] => some (⟨nameTok⟩, none)
    | '[' :: r3 =>
      let al := r3.takeWhile (fun c => c ≠ ']')
      match r3.dropWhile (fun c => c ≠ ']') with
      | ']' :: r4 =>
        if al.isEmpty then none
        else if r4.all jsWs then some (⟨nameTok⟩, some ⟨al⟩) else none
      | _ => none
    | _ => none

/-- The left cardinality alternation `(\|o|o\||\|\||}\||}\o|o\{|\|\{)`. -/
def leftCardTok : List Char → Option (List Char × List Char)
  | a :: b :: rest =>
    if (a = '|' && b = 'o') || (a = 'o' && b = '|') || (a = '|' && b = '|') ||
       (a = '\x7d' && b = '|') || (a = '\x7d' && b = 'o') ||
       (a = 'o' && b = '\x7b') || (a = '|' && b = '\x7b')
    then some ([a, b], rest) else none
  | _ => none

/-- The right cardinality alternation `(o\||o\{|\|\||\|o|\|{|{\||\{o)`. -/
def rightCardTok : List Char → Option (List Char × List Char)
  | a :: b :: rest =>
    if (a = 'o' && b = '|') || (a = 'o' && b = '\x7b') || (a = '|' && b = '|') ||
       (a = '|' && b = 'o') || (a = '|' && b = '\x7b') ||
       (a = '\x7b' && b = '|') || (a = '\x7b' && b = 'o')
    then some ([a, b], rest) else none
  | _ => none

/-- The label part `"?([^"]+)"?\s*$` of a relationship line; returns the
captured label content. -/
def matchLabel (r : List Char) : Option (List Char) :=
  let r1 := match r with
    | '"' :: t => t
    | _ => r
  let content := r1.takeWhile (fun c => c ≠ '"')
  if content.isEmpty then none
  else
    match r1.dropWhile (fun c => c ≠ '"') with
    | [] => some content
    | '"' :: tail => if tail.all jsWs then some content else none
    | _ => none

/-- After the left cardinality token: connector, right cardinality, second
entity name, colon and label. -/
def matchRelTail (r : List Char) : Option (List Char × List Char × List Char × List Char) :=
  let conn : Option (List Char × List Char) := match r with
    | '-' :: '-' :: r4 => some (['-', '-'], r4)
    | '.' :: '.' :: r4 => some (['.', '.'], r4)
    | _ => none
  match conn with
  | none => none
  | some (connTok, r4) =>
    match rightCardTok r4 with
    | none => none
    | some (cardR, r5) =>
      match parseNameToken (r5.dropWhile jsWs) with
      | none => none
      | some (tok2, r7) =>
        match r7.dropWhile jsWs with
        | ':' :: r9 =>
          match matchLabel (r9.dropWhile jsWs) with
          | some lab => some (connTok, cardR, tok2, lab)
          | none => none
        | _ => none

/-- Backtracking over the length of an identifier first-entity name: the
regex engine shrinks the greedy name token (whose trailing characters can
only be `o` when a cardinality token follows directly) until the rest of
the relationship pattern matches. -/
def relTryLen (full after : List Char) : Nat → Option (List Char × List Char × List Char × List Char × List Char × List Char)
  | 0 => none
  | k + 1 =>
    let tok := full.take (k + 1)
    let restAll := (full.drop (k + 1) ++ after).dropWhile jsWs
    match leftCardTok restAll with
    | some (cardL, r3) =>
      match matchRelTail r3 with
      | some (connTok, cardR, tok2, lab) => some (tok, cardL, connTok, cardR, tok2, lab)
      | none => relTryLen full after k
    | none => relTryLen full after k

/-- Regex `PATTERNS.RELATIONSHIP`
`/^\s*(name)\s*(leftCard)(\-\-|\.\.)(rightCard)\s*(name)\s*:\s*"?([^"]+)"?\s*$/`.
Returns raw first name, left cardinality, connector, right cardinality,
raw second name and label content. -/
def matchRelationship (line : String) : Option (String × String × String × String × String × String) :=
  let r0 := line.data.dropWhile jsWs
  match r0 with
  | '\\' :: _ =>
    match parseNameToken r0 with
    | none => none
    | some (tok, r1) =>
      match leftCardTok (r1.dropWhile jsWs) with
      | none => none
      | some (cardL, r3) =>
        match matchRelTail r3 with
        | some (connTok, cardR, tok2, lab) =>
          some (⟨tok⟩, ⟨cardL⟩, ⟨connTok⟩, ⟨cardR⟩, ⟨tok2⟩, ⟨lab⟩)
        | none => none
  | c :: _ =>
    if isNameStart c then
      let full := r0.takeWhile isNameChar
      let after := r0.dropWhile isNameChar
      match relTryLen full after full.length with
      | some (tok, cardL, connTok, cardR, tok2, lab) =>
        some (⟨tok⟩, ⟨cardL⟩, ⟨connTok⟩, ⟨cardR⟩, ⟨tok2⟩, ⟨lab⟩)
      | none => none
    else none
  | [] => none

/-! ## The parser state machine (`parseERDiagram`) -/

/-- The mutable locals of the `parseERDiagram` loop. -/
structure ParserState where
  entities : List (String × Entity)
  relationships : List Relationship
  errors : List String
  inERDiagram : Bool
  currentEntity : Option Entity
  inEntityBlock : Bool
deriving DecidableEq

/-- JavaScript `Map.prototype.has` for the insertion-ordered entity table. -/
def entMapHas (m : List (String × Entity)) (k : String) : Bool :=
  m.any (fun p => p.1 == k)

/-- JavaScript `Map.prototype.set`: replace in place if the key exists,
otherwise append (insertion order is preserved). -/
def entMapSet (m : List (String × Entity)) (k : String) (v : Entity) : List (String × Entity) :=
  match m with
  | [] => [(k, v)]
  | (k', v') :: rest => if k' == k then (k', v) :: rest else (k', v') :: entMapSet rest k v

/-- `name.replace(/^\*/, '')`. -/
def stripLeadingStar (s : String) : String :=
  match s.data with
  | '*' :: rest => ⟨rest⟩
  | _ => s

/-- Attribute construction of the in-block branch: build the attribute from
the captured groups, strip a leading `*` from the name and prepend `PK`
when the marker was present and `PK` is not already listed. -/
def buildAttribute (ty nm : String) (keysStr comment : Option String) : Attribute :=
  let keys0 := parseAttributeKeys keysStr
  let keys1 :=
    match nm.data with
    | '*' :: _ => if keys0.contains AttributeKey.PK then keys0 else AttributeKey.PK :: keys0
    | _ => keys0
  { name := stripLeadingStar nm, type := ty, keys := keys1, comment := comment }

/-- The error message pushed for an unparseable attribute line. -/
def attrErrorMsg (lineNumber : Nat) (line : String) : String :=
  "Line " ++ Nat.repr lineNumber ++ ": Unable to parse attribute: \"" ++ line ++ "\""

/-- The entity-block-start branch: open a new in-progress entity. -/
def handleBlockStart (st : ParserState) (nameTok : String) (aliasTok : Option String) : ParserState :=
  { st with
    currentEntity := some
      { name := cleanEntityName nameTok,
        aliasName := aliasTok.map cleanEntityName,
        attributes := [] },
    inEntityBlock := true }

/-- `if (!entities.has(name)) entities.set(name, { name, attributes: [] })`. -/
def ensureEntity (m : List (String × Entity)) (n : String) : List (String × Entity) :=
  if entMapHas m n then m
  else entMapSet m n { name := n, aliasName := none, attributes := [] }

/-- The relationship branch: auto-insert both entities if absent, then
append the relationship. -/
def handleRelationship (st : ParserState)
    (firstTok leftCard connTok rightCard secondTok label : String) : ParserState :=
  { st with
    entities := ensureEntity (ensureEntity st.entities (cleanEntityName firstTok))
      (cleanEntityName secondTok),
    relationships := st.relationships ++
      [{ firstEntity := cleanEntityName firstTok,
         secondEntity := cleanEntityName secondTok,
         firstCardinality := parseCardinality leftCard,
         secondCardinality := parseCardinality rightCard,
         identifying := connTok == "--",
         label := stripQuotesPlain (jsTrim label) }] }

/-- The standalone-entity branch: insert if not already present. -/
def handleStandalone (st : ParserState) (nameTok : String) (aliasTok : Option String) : ParserState :=
  if entMapHas st.entities (cleanEntityName nameTok) then st
  else
    { st with
      entities := entMapSet st.entities (cleanEntityName nameTok)
        { name := cleanEntityName nameTok,
          aliasName := aliasTok.map cleanEntityName,
          attributes := [] } }

/-- The entity-block-start / relationship / standalone-entity chain reached
when the line is not consumed by the earlier branches. -/
def handleTopLevel (st : ParserState) (line : String) : ParserState :=
  match matchEntityBlockStart line with
  | some (nameTok, aliasTok) => handleBlockStart st nameTok aliasTok
  | none =>
    match matchRelationship line with
    | some (firstTok, leftCard, connTok, rightCard, secondTok, label) =>
      handleRelationship st firstTok leftCard connTok rightCard secondTok label
    | none =>
      match matchStandalone line with
      | some (nameTok, aliasTok) => handleStandalone st nameTok aliasTok
      | none => st

/-- One iteration of the `parseERDiagram` line loop, applied to the
already-trimmed line. -/
def processTrimmed (st : ParserState) (lineNumber : Nat) (line : String) : ParserState :=
  if isEmptyLine line || isCommentLine line then st
  else if isHeaderLine line then { st with inERDiagram := true }
  else if !st.inERDiagram then st
  else if isDirectionLine line then st
  else if isBlockEndLine line then
    match st.currentEntity with
    | some e =>
      { st with entities := entMapSet st.entities e.name e,
                currentEntity := none, inEntityBlock := false }
    | none => { st with inEntityBlock := false }
  else
    match st.currentEntity with
    | some cur =>
      if st.inEntityBlock then
        match matchAttribute line with
        | some (ty, nm, keysStr, comment) =>
          let cur2 : Entity :=
            { cur with attributes := cur.attributes ++ [buildAttribute ty nm keysStr comment] }
          { st with currentEntity := some cur2 }
        | none => { st with errors := st.errors ++ [attrErrorMsg lineNumber line] }
      else handleTopLevel st line
    | none => handleTopLevel st line

/-- One iteration of the `parseERDiagram` line loop: trim, then process. -/
def processLine (st : ParserState) (lineNumber : Nat) (rawLine : String) : ParserState :=
  processTrimmed st lineNumber (jsTrim rawLine)

/-- The line loop, threading the 1-based line number. -/
def runLines : List String → Nat → ParserState → ParserState
  | [], _, st => st
  | l :: ls, n, st => runLines ls (n + 1) (processLine st n l)

/-- The initial parser state. -/
def initState : ParserState :=
  { entities := [], relationships := [], errors := [],
    inERDiagram := false, currentEntity := none, inEntityBlock := false }

/-- `parseERDiagram` of `src/parser/index.ts`. -/
def parseERDiagram (input : String) : ParseResult :=
  let final := runLines (splitLines input) 1 initState
  let entities :=
    match final.currentEntity with
    | some e => entMapSet final.entities e.name e
    | none => final.entities
  { success := final.errors.isEmpty,
    schema := some { entities := entities.map (·.2), relationships := final.relationships },
    errors := if final.errors.isEmpty then none else some final.errors }

/-! ## The validator (`validateERDiagram`) -/

/-- Result type of `validateERDiagram`. -/
structure ValidateResult where
  valid : Bool
  errors : List String
deriving DecidableEq

/-- JavaScript `String.prototype.includes` on character lists. -/
def hasSubstr (needle : List Char) : List Char → Bool
  | [] => needle.isEmpty
  | c :: rest => needle.isPrefixOf (c :: rest) || hasSubstr needle rest

/-- JavaScript `names.filter((name, index) => names.indexOf(name) !== index)`
(the duplicate-entity scan), threading the running index. -/
def dupScan (full : List String) : List String → Nat → List String
  | [], _ => []
  | n :: rest, i =>
    (if full.indexOf n ≠ i then [n] else []) ++ dupScan full rest (i + 1)

/-- Parse errors of the result (`result.errors ? [...result.errors] : []`). -/
def parseErrorList (input : String) : List String :=
  match (parseERDiagram input).errors with
  | some es => es
  | none => []

/-- The parse errors plus the missing-header error of `validateERDiagram`
(`if (!input.toLowerCase().includes('erdiagram')) errors.push(...)`). -/
def errorsWithHeader (input : String) : List String :=
  if hasSubstr "erdiagram".data (strLower input).data then parseErrorList input
  else parseErrorList input ++ ["Diagram does not contain \"erDiagram\" declaration"]

/-- The duplicate-entity error of `validateERDiagram`. -/
def dupErrors (entityNames : List String) : List String :=
  if (dupScan entityNames entityNames 0).length > 0 then
    ["Duplicate entity names: " ++ joinSep ", " (dupScan entityNames entityNames 0)]
  else []

/-- The dangling-reference errors of `validateERDiagram`. -/
def danglingErrors (entityNames : List String) (rels : List Relationship) : List String :=
  rels.flatMap (fun rel =>
    (if entityNames.contains rel.firstEntity then []
     else ["Relationship references non-existent entity: " ++ rel.firstEntity]) ++
    (if entityNames.contains rel.secondEntity then []
     else ["Relationship references non-existent entity: " ++ rel.secondEntity]))

/-- `validateERDiagram` of `src/parser/index.ts`. -/
def validateERDiagram (input : String) : ValidateResult :=
  match (parseERDiagram input).schema with
  | none =>
    { valid := (errorsWithHeader input).isEmpty, errors := errorsWithHeader input }
  | some schema =>
    { valid := (errorsWithHeader input ++ dupErrors (schema.entities.map Entity.name) ++
        danglingErrors (schema.entities.map Entity.name) schema.relationships).isEmpty,
      errors := errorsWithHeader input ++ dupErrors (schema.entities.map Entity.name) ++
        danglingErrors (schema.entities.map Entity.name) schema.relationships }

/-! ## SQL generator (`sqlGenerator.ts`) -/

/-- The `TYPE_MAPPING` record, as an association list in source order. -/
def typeMappingList : List (String × String) :=
  [("int", "INTEGER"), ("integer", "INTEGER"), ("bigint", "BIGINT"),
   ("smallint", "SMALLINT"), ("serial", "SERIAL"), ("bigserial", "BIGSERIAL"),
   ("decimal", "DECIMAL(10,2)"), ("numeric", "NUMERIC"), ("float", "FLOAT"),
   ("real", "REAL"), ("double", "DOUBLE PRECISION"),
   ("string", "VARCHAR(255)"), ("varchar", "VARCHAR(255)"), ("text", "TEXT"),
   ("char", "CHAR(1)"),
   ("boolean", "BOOLEAN"), ("bool", "BOOLEAN"),
   ("date", "DATE"), ("time", "TIME"), ("datetime", "TIMESTAMP"),
   ("timestamp", "TIMESTAMP"), ("timestamptz", "TIMESTAMPTZ"),
   ("uuid", "UUID"),
   ("json", "JSON"), ("jsonb", "JSONB"),
   ("bytea", "BYTEA"), ("blob", "BYTEA")]

/-- Record lookup `TYPE_MAPPING[key]`. -/
def typeMapping (key : String) : Option String :=
  (typeMappingList.find? (fun p => p.1 == key)).map (·.2)

/-- `normalized.endsWith('[]')` together with `normalized.slice(0, -2)`. -/
def splitArraySuffix (s : String) : Option String :=
  match s.data.reverse with
  | ']' :: '[' :: restRev => some ⟨restRev.reverse⟩
  | _ => none

/-- Character class `\w` of JavaScript regexes. -/
def isWordChar (c : Char) : Bool := c.isAlphanum || c = '_'

/-- JavaScript line terminators, which `.` does not match. -/
def isLineTerm (c : Char) : Bool :=
  c = '\n' || c = '\r' || c = '\u2028' || c = '\u2029'

/-- Regex `/^(\w+)\((.+)\)$/` used for parameterized types; returns the
base name and the parameter text. -/
def paramTypeMatch (s : String) : Option (String × String) :=
  let w := s.data.takeWhile isWordChar
  let rest := s.data.dropWhile isWordChar
  if w.isEmpty then none
  else
    match rest with
    | '(' :: r2 =>
      match r2.reverse with
      | ')' :: midRev =>
        let mid := midRev.reverse
        if mid.isEmpty then none
        else if mid.all (fun c => !isLineTerm c) then some (⟨w⟩, ⟨mid⟩) else none
      | _ => none
    | _ => none

/-- `mapType` of `sqlGenerator.ts` (`normalized` is inlined as
`jsTrim (strLower mermaidType)`). -/
def mapType (mermaidType : String) : String :=
  match splitArraySuffix (jsTrim (strLower mermaidType)) with
  | some baseType => (typeMapping baseType).getD "TEXT" ++ "[]"
  | none =>
    match paramTypeMatch (jsTrim (strLower mermaidType)) with
    | some (baseType, params) =>
      match typeMapping baseType with
      | some pgBaseType =>
        if pgBaseType.data.contains '(' then
          ⟨pgBaseType.data.takeWhile (fun c => c ≠ '(')⟩ ++ "(" ++ params ++ ")"
        else pgBaseType ++ "(" ++ params ++ ")"
      | none => (typeMapping (jsTrim (strLower mermaidType))).getD "TEXT"
    | none => (typeMapping (jsTrim (strLower mermaidType))).getD "TEXT"

/-- Regex `replace(/([a-z])([A-Z])/g, '$1_$2')`: insert an underscore at
each lower-to-upper camelCase boundary.  The JavaScript engine consumes
both matched characters before rescanning, but since a match's second
character is uppercase it can never start the next match, so stepping one
character at a time is equivalent. -/
def camelSplit : List Char → List Char
  | [] => []
  | a :: rest =>
    match rest with
    | [] => [a]
    | b :: _ =>
      if a.isLower && b.isUpper then a :: '_' :: camelSplit rest
      else a :: camelSplit rest

/-- Regex `replace(/[-\s]+/g, '_')` (state-machine form: the flag records
whether the scan is inside a separator run). -/
def collapseSepAux : Bool → List Char → List Char
  | _, [] => []
  | inSep, c :: rest =>
    if c = '-' || jsWs c then
      if inSep then collapseSepAux true rest
      else '_' :: collapseSepAux true rest
    else c :: collapseSepAux false rest

/-- Regex `replace(/[-\s]+/g, '_')`: collapse runs of hyphens and
whitespace into a single underscore. -/
def collapseSep (l : List Char) : List Char := collapseSepAux false l

/-- `toTableName` of `sqlGenerator.ts`. -/
def toTableName (entityName : String) : String :=
  ⟨(collapseSep (camelSplit entityName.data)).map Char.toLower⟩

/-- `toColumnName` of `sqlGenerator.ts` (textually the same algorithm). -/
def toColumnName (attributeName : String) : String :=
  ⟨(collapseSep (camelSplit attributeName.data)).map Char.toLower⟩

/-- The column definition pushed for one attribute by the
`generateCreateTable` loop. -/
def columnDefOf (attr : Attribute) : String :=
  let colName := toColumnName attr.name
  let colType := mapType attr.type
  let colDef := "  \"" ++ colName ++ "\" " ++ colType
  if attr.keys.contains AttributeKey.PK then colDef ++ " NOT NULL" else colDef

/-- `generateCreateTable` of `sqlGenerator.ts`. -/
def generateCreateTable (entity : Entity) : String :=
  let tableName := toTableName entity.name
  let columns := entity.attributes.foldl (fun acc attr => acc ++ [columnDefOf attr]) []
  let pkColumns := (entity.attributes.filter (fun a => a.keys.contains AttributeKey.PK)).map
    (fun a => "\"" ++ toColumnName a.name ++ "\"")
  let constraints := if pkColumns.length > 0 then
      ["  PRIMARY KEY (" ++ joinSep ", " pkColumns ++ ")"]
    else []
  let ukColumns := entity.attributes.filter
    (fun a => a.keys.contains AttributeKey.UK && !(a.keys.contains AttributeKey.PK))
  let constraints := constraints ++ ukColumns.map
    (fun ukCol => "  UNIQUE (\"" ++ toColumnName ukCol.name ++ "\")")
  let allParts := columns ++ constraints
  "CREATE TABLE IF NOT EXISTS \"" ++ tableName ++ "\" (\n" ++ joinSep ",\n" allParts ++ "\n);"

/-- `colName.endsWith('_id')` together with `colName.slice(0, -3)`. -/
def stripIdSuffix (s : String) : Option String :=
  match s.data.reverse with
  | 'd' :: 'i' :: '_' :: restRev => some ⟨restRev.reverse⟩
  | _ => none

/-- The `entityMap` of `generateForeignKeys`: a JavaScript `Map` built from
`[e.name.toLowerCase(), e]` pairs in entity order. -/
def entityMapOf (schema : DatabaseSchema) : List (String × Entity) :=
  schema.entities.foldl (fun m e => entMapSet m (strLower e.name) e) []

/-- The referenced column chosen by `generateForeignKeys`: the referenced
table's own PK column, or `id` if it has none. -/
def refColumnOf (refEntity : Entity) : String :=
  match refEntity.attributes.find? (fun a => a.keys.contains AttributeKey.PK) with
  | some refPk => toColumnName refPk.name
  | none => "id"

/-- The `ALTER TABLE ... ADD CONSTRAINT ... FOREIGN KEY ...` statement text. -/
def fkAlterStatement (tableName colName refTable refColumn : String) : String :=
  "ALTER TABLE \"" ++ tableName ++ "\" ADD CONSTRAINT \"fk_" ++ tableName ++ "_" ++ colName ++
  "\" FOREIGN KEY (\"" ++ colName ++ "\") REFERENCES \"" ++ refTable ++ "\" (\"" ++ refColumn ++
  "\") ON DELETE CASCADE;"

/-- The per-FK-attribute inference of `generateForeignKeys`: strip `_id`,
look for the first entity-map entry whose key normalizes to the stripped
name, and build the statement. -/
def fkStatementOf (entityMap : List (String × Entity)) (tableName : String) (fkCol : Attribute) : Option String :=
  (stripIdSuffix (toColumnName fkCol.name)).bind (fun possibleTable =>
    (entityMap.find? (fun p => toTableName p.1 == possibleTable)).map (fun p =>
      fkAlterStatement tableName (toColumnName fkCol.name) possibleTable (refColumnOf p.2)))

/-- `generateForeignKeys` of `sqlGenerator.ts`. -/
def generateForeignKeys (schema : DatabaseSchema) : List String :=
  let entityMap := entityMapOf schema
  schema.entities.flatMap (fun entity =>
    ((entity.attributes.filter (fun a => a.keys.contains AttributeKey.FK)).filterMap
      (fkStatementOf entityMap (toTableName entity.name))))

/-- `generateDropTables` of `sqlGenerator.ts`. -/
def generateDropTables (schema : DatabaseSchema) : List String :=
  (schema.entities.map (fun e => toTableName e.name)).map
    (fun t => "DROP TABLE IF EXISTS \"" ++ t ++ "\" CASCADE;")

/-! ## Query builder (`queryBuilder.ts`) -/

/-- Runtime values supplied by users of the query builder (ids and record
fields); `vUndef` models the JavaScript `undefined`. -/
inductive Value where
  | vStr : String → Value
  | vInt : Int → Value
  | vUndef : Value
deriving DecidableEq

/-- `QueryConfig` of `queryBuilder.ts`.  In TypeScript `primaryKey` is typed
`string`, but `columns[0]` of an empty list is `undefined` at runtime, so
it is modelled as `Option String`. -/
structure QueryConfig where
  tableName : String
  columns : List String
  primaryKey : Option String
deriving DecidableEq

/-- `buildQueryConfig` of `queryBuilder.ts`. -/
def buildQueryConfig (entity : Entity) : QueryConfig :=
  let tableName := toTableName entity.name
  let columns := entity.attributes.map (fun a => toColumnName a.name)
  let pkAttr := entity.attributes.find? (fun a => a.keys.contains AttributeKey.PK)
  { tableName := tableName,
    columns := columns,
    primaryKey := match pkAttr with
      | some a => some (toColumnName a.name)
      | none => columns.head? }

/-- JavaScript template-literal interpolation of `config.primaryKey`:
`undefined` stringifies to `"undefined"`. -/
def pkText (config : QueryConfig) : String := config.primaryKey.getD "undefined"

/-- A built statement: SQL text plus positional parameters. -/
structure SqlQuery where
  sql : String
  params : List Value
deriving DecidableEq

/-- The `orderDir` option (`'ASC' | 'DESC'`). -/
inductive OrderDir where
  | ASC
  | DESC
deriving DecidableEq

/-- Text of an `OrderDir`. -/
def OrderDir.toStr : OrderDir → String
  | .ASC => "ASC"
  | .DESC => "DESC"

/-- The options record of `selectAll`. -/
structure SelectAllOptions where
  limit : Option Int
  offset : Option Int
  orderBy : Option String
  orderDir : Option OrderDir
deriving DecidableEq

/-- JavaScript truthiness of `options?.limit` / `options?.offset`
(a number is falsy exactly when it is `0`, absent values are falsy). -/
def jsTruthyInt : Option Int → Bool
  | some v => v != 0
  | none => false

/-- JavaScript truthiness of `options?.orderBy` (the empty string is falsy). -/
def jsTruthyStr : Option String → Bool
  | some s => !s.data.isEmpty
  | none => false

/-- `selectAll` of `queryBuilder.ts`. -/
def selectAll (config : QueryConfig) (options : SelectAllOptions) : SqlQuery :=
  let sql0 := "SELECT * FROM \"" ++ config.tableName ++ "\""
  let params0 : List Value := []
  let sql1 :=
    if jsTruthyStr options.orderBy then
      sql0 ++ " ORDER BY \"" ++ options.orderBy.getD "" ++ "\" " ++ (options.orderDir.getD .ASC).toStr
    else sql0
  let sp2 :=
    if jsTruthyInt options.limit then
      (sql1 ++ " LIMIT $" ++ Nat.repr (params0.length + 1), params0 ++ [Value.vInt (options.limit.getD 0)])
    else (sql1, params0)
  let sp3 :=
    if jsTruthyInt options.offset then
      (sp2.1 ++ " OFFSET $" ++ Nat.repr (sp2.2.length + 1), sp2.2 ++ [Value.vInt (options.offset.getD 0)])
    else sp2
  { sql := sp3.1, params := sp3.2 }

/-- `selectById` of `queryBuilder.ts`. -/
def selectById (config : QueryConfig) (id : Value) : SqlQuery :=
  { sql := "SELECT * FROM \"" ++ config.tableName ++ "\" WHERE \"" ++ pkText config ++ "\" = $1",
    params := [id] }

/-- `insert` of `queryBuilder.ts`.  A data record is an insertion-ordered
association list (JavaScript object keys are unique and ordered). -/
def insert (config : QueryConfig) (data : List (String × Value)) : SqlQuery :=
  let keys := (data.map (·.1)).filter (fun k => config.columns.contains k)
  let values := keys.map (fun k => ((data.find? (fun p => p.1 == k)).map (·.2)).getD Value.vUndef)
  let placeholders := (List.range keys.length).map (fun i => "$" ++ Nat.repr (i + 1))
  { sql := "INSERT INTO \"" ++ config.tableName ++ "\" (" ++
      joinSep ", " (keys.map (fun k => "\"" ++ k ++ "\"")) ++ ") VALUES (" ++
      joinSep ", " placeholders ++ ") RETURNING *",
    params := values }

/-- `update` of `queryBuilder.ts`.  The filter `k !== config.primaryKey`
compares against a possibly-`undefined` primary key, which no string
equals. -/
def update (config : QueryConfig) (id : Value) (data : List (String × Value)) : SqlQuery :=
  let keys := (data.map (·.1)).filter
    (fun k => config.columns.contains k && !(config.primaryKey == some k))
  let values := keys.map (fun k => ((data.find? (fun p => p.1 == k)).map (·.2)).getD Value.vUndef)
  let setClauses := keys.mapIdx (fun i k => "\"" ++ k ++ "\" = $" ++ Nat.repr (i + 1))
  { sql := "UPDATE \"" ++ config.tableName ++ "\" SET " ++ joinSep ", " setClauses ++
      " WHERE \"" ++ pkText config ++ "\" = $" ++ Nat.repr (keys.length + 1) ++ " RETURNING *",
    params := values ++ [id] }

/-- `deleteById` of `queryBuilder.ts`. -/
def deleteById (config : QueryConfig) (id : Value) : SqlQuery :=
  { sql := "DELETE FROM \"" ++ config.tableName ++ "\" WHERE \"" ++ pkText config ++ "\" = $1 RETURNING *",
    params := [id] }

/-- `count` of `queryBuilder.ts`. -/
def count (config : QueryConfig) : SqlQuery :=
  { sql := "SELECT COUNT(*) as count FROM \"" ++ config.tableName ++ "\"",
    params := [] }

/-! ## String helper lemmas -/

theorem string_eq_iff_data {a b : String} : a = b ↔ a.data = b.data :=
  ⟨congrArg _, fun h => by cases a; cases b; cases h; rfl⟩

theorem data_append (a b : String) : (a ++ b).data = a.data ++ b.data := by
  cases a; cases b; rfl

theorem str_append_empty (s : String) : s ++ "" = s := by
  cases s with
  | mk l => rw [string_eq_iff_data, data_append]; simp

theorem str_append_ne_empty (a b : String) (hb : b ≠ "") : a ++ b ≠ "" := by
  intro h
  rw [string_eq_iff_data, data_append] at h
  rcases List.append_eq_nil.mp h with ⟨_, h2⟩
  exact hb (string_eq_iff_data.mpr h2)

/-! ## Claim C1: ParseResult invariant -/

/-- C1.  For every input string, `parseERDiagram` returns a result whose
`success` flag is true iff the `errors` field is absent, the schema is
present in both the success and the failure case, and the `errors` field,
when present, holds a non-empty list. -/
theorem c1_success_iff_no_errors (input : String) :
    ((parseERDiagram input).success = true ↔ (parseERDiagram input).errors = none) ∧
    (parseERDiagram input).schema.isSome = true ∧
    (∀ l, (parseERDiagram input).errors = some l → l ≠ []) := by
  simp only [parseERDiagram]
  cases h : (runLines (splitLines input) 1 initState).errors with
  | nil => simp
  | cons a t => simp

/-- C1 witness: a concrete failing parse has a non-empty error list. -/
theorem c1_witness : ["Line 3: Unable to parse attribute: \"?\""] ≠ ([] : List String) :=
  (c1_success_iff_no_errors "erDiagram\nA \x7b\n?\n\x7d").2.2 _ (by decide)

/-! ## Claim C8: cardinality decoding -/

theorem stripWsAll_idem (s : String) : stripWsAll (stripWsAll s) = stripWsAll s := by
  simp [stripWsAll, List.filter_filter]

/-- C8.  Cardinality decoding first strips every whitespace character, maps
the fixed alphabet symmetrically, and maps every token outside the
alphabet to `EXACTLY_ONE` (`{` and `}` are written `\x7b`/`\x7d`). -/
theorem c8_cardinality :
    (∀ s, parseCardinality s = parseCardinality (stripWsAll s)) ∧
    (parseCardinality "|o" = .ZERO_OR_ONE ∧ parseCardinality "o|" = .ZERO_OR_ONE ∧
     parseCardinality "||" = .EXACTLY_ONE ∧
     parseCardinality "\x7do" = .ZERO_OR_MORE ∧ parseCardinality "o\x7b" = .ZERO_OR_MORE ∧
     parseCardinality "\x7bo" = .ZERO_OR_MORE ∧
     parseCardinality "\x7d|" = .ONE_OR_MORE ∧ parseCardinality "|\x7b" = .ONE_OR_MORE ∧
     parseCardinality "\x7b|" = .ONE_OR_MORE) ∧
    (∀ s, stripWsAll s ∉
        (["|o", "o|", "||", "\x7do", "o\x7b", "\x7bo", "\x7d|", "|\x7b", "\x7b|"] : List String) →
      parseCardinality s = .EXACTLY_ONE) := by
  refine ⟨fun s => ?_, by decide, fun s h => ?_⟩
  · simp only [parseCardinality, stripWsAll_idem]
  · simp only [List.mem_cons, List.not_mem_nil, or_false, not_or] at h
    obtain ⟨h1, h2, h3, h4, h5, h6, h7, h8, h9⟩ := h
    have hnone : cardinalitySymbols (stripWsAll s) = none := by
      unfold cardinalitySymbols
      rw [List.find?_eq_none.mpr]
      · rfl
      · intro x hx
        simp only [cardinalitySymbolsList, List.mem_cons, List.not_mem_nil, or_false] at hx
        rcases hx with rfl | rfl | rfl | rfl | rfl | rfl | rfl <;>
          simp only [beq_iff_eq] <;> first
          | exact fun e => h1 e.symm | exact fun e => h2 e.symm
          | exact fun e => h3 e.symm | exact fun e => h4 e.symm
          | exact fun e => h5 e.symm | exact fun e => h7 e.symm
          | exact fun e => h8 e.symm
    unfold parseCardinality
    rw [if_neg (by simp [h1, h2]), if_neg h3, if_neg (by simp [h4, h5, h6]),
        if_neg (by simp [h7, h8, h9]), hnone]
    rfl

/-- C8 witness: a token outside the alphabet decodes to `EXACTLY_ONE`. -/
theorem c8_witness : parseCardinality "xx" = .EXACTLY_ONE :=
  c8_cardinality.2.2 "xx" (by decide)

/-! ## Claim C6: mapType totality and array round-trip -/

theorem typeMapping_ne_empty (k v : String) (h : typeMapping k = some v) : v ≠ "" := by
  unfold typeMapping at h
  cases hf : typeMappingList.find? (fun p => p.1 == k) with
  | none => rw [hf] at h; simp at h
  | some p =>
    rw [hf] at h
    simp at h
    have hmem := List.mem_of_find?_eq_some hf
    have hall : ∀ q ∈ typeMappingList, q.2 ≠ "" := by decide
    exact h ▸ hall p hmem

theorem splitArraySuffix_append (b : String) : splitArraySuffix (b ++ "[]") = some b := by
  cases b with
  | mk l =>
    show splitArraySuffix ⟨l ++ ['[', ']']⟩ = some ⟨l⟩
    simp [splitArraySuffix, List.reverse_append]

/-- C6.  `mapType` is total and never returns the empty string; for inputs
whose lowercased, trimmed form ends in `[]` it maps the base type through
the type table (falling back to the generic `TEXT` for unmapped bases) and
appends `[]`; `mapType "int[]"` is `mapType "int"` with `[]` appended; and
unknown plain types fall back to `TEXT`. -/
theorem c6_map_type_total :
    (∀ s, mapType s ≠ "") ∧
    (∀ s base, jsTrim (strLower s) = base ++ "[]" →
      mapType s = (typeMapping base).getD "TEXT" ++ "[]") ∧
    mapType "int[]" = mapType "int" ++ "[]" ∧
    mapType "int[]" = "INTEGER[]" ∧
    (∀ s, splitArraySuffix (jsTrim (strLower s)) = none →
      paramTypeMatch (jsTrim (strLower s)) = none →
      typeMapping (jsTrim (strLower s)) = none →
      mapType s = "TEXT") := by
  refine ⟨fun s => ?_, fun s base h => ?_, by decide, by decide, fun s h1 h2 h3 => ?_⟩
  · unfold mapType
    split
    · exact str_append_ne_empty _ "[]" (by decide)
    · split
      · split
        · split
          · exact str_append_ne_empty _ ")" (by decide)
          · exact str_append_ne_empty _ ")" (by decide)
        · cases hplain : typeMapping (jsTrim (strLower s)) with
          | some v => simpa using typeMapping_ne_empty _ v hplain
          | none => decide
      · cases hplain : typeMapping (jsTrim (strLower s)) with
        | some v => simpa using typeMapping_ne_empty _ v hplain
        | none => decide
  · unfold mapType
    rw [h, splitArraySuffix_append]
  · unfold mapType
    rw [h1, h2, h3]
    rfl

/-- C6 witness: an unknown plain type maps to the generic text type. -/
theorem c6_witness : mapType "foo" = "TEXT" :=
  c6_map_type_total.2.2.2.2 "foo" rfl rfl rfl

/-! ## Claim C10: entities with no attributes get an undefined primary key -/

/-- C10.  For an entity with an empty attribute list, `buildQueryConfig`
yields `primaryKey = none` (the TypeScript `columns[0]` of an empty array,
i.e. `undefined`), and `selectById`, `deleteById` and `update` build SQL
that references the column `"undefined"` instead of failing. -/
theorem c10_empty_entity_primary_key (e : Entity) (h : e.attributes = []) :
    (buildQueryConfig e).primaryKey = none ∧
    (∀ id, selectById (buildQueryConfig e) id =
      { sql := "SELECT * FROM \"" ++ toTableName e.name ++ "\" WHERE \"undefined\" = $1",
        params := [id] }) ∧
    (∀ id, deleteById (buildQueryConfig e) id =
      { sql := "DELETE FROM \"" ++ toTableName e.name ++ "\" WHERE \"undefined\" = $1 RETURNING *",
        params := [id] }) ∧
    (∀ id data, update (buildQueryConfig e) id data =
      { sql := "UPDATE \"" ++ toTableName e.name ++ "\" SET  WHERE \"undefined\" = $1 RETURNING *",
        params := [id] }) := by
  have hcfg : buildQueryConfig e =
      { tableName := toTableName e.name, columns := [], primaryKey := none } := by
    simp [buildQueryConfig, h]
  refine ⟨by rw [hcfg], fun id => ?_, fun id => ?_, fun id data => ?_⟩
  · rw [hcfg]
    unfold selectById pkText
    refine congrArg₂ SqlQuery.mk ?_ rfl
    rw [string_eq_iff_data]
    simp only [data_append, List.append_assoc]
    exact congrArg _ (congrArg _ (by decide))
  · rw [hcfg]
    unfold deleteById pkText
    refine congrArg₂ SqlQuery.mk ?_ rfl
    rw [string_eq_iff_data]
    simp only [data_append, List.append_assoc]
    exact congrArg _ (congrArg _ (by decide))
  · rw [hcfg]
    unfold update pkText
    have hkeys : (data.map Prod.fst).filter
        (fun k => ([] : List String).contains k && !((none : Option String) == some k)) = [] := by
      simp
    rw [hkeys]
    refine congrArg₂ SqlQuery.mk ?_ (by simp)
    rw [string_eq_iff_data]
    simp only [data_append, List.append_assoc]
    exact congrArg _ (congrArg _ (by decide))

/-- C10 witness: the statement built for a concrete attribute-free entity. -/
theorem c10_witness :
    selectById (buildQueryConfig { name := "ORDER", aliasName := none, attributes := [] })
      (Value.vInt 1) =
    { sql := "SELECT * FROM \"" ++ toTableName "ORDER" ++ "\" WHERE \"undefined\" = $1",
      params := [Value.vInt 1] } :=
  (c10_empty_entity_primary_key _ rfl).2.1 _

/-! ## Claim C3: generateCreateTable structure -/

/-- Column definition as worded by the claim: quoted normalized column
name, mapped type, `NOT NULL` appended exactly when the key set carries
PK. -/
def createTableColumnDefSpec (a : Attribute) : String :=
  "  \"" ++ toColumnName a.name ++ "\" " ++ mapType a.type ++
  (if a.keys.contains AttributeKey.PK then " NOT NULL" else "")

/-- `CREATE TABLE` statement as worded by the claim: one column definition
per attribute in attribute order, then a PRIMARY KEY constraint listing all
PK columns in attribute order (present when that list is non-empty), then
one UNIQUE constraint per attribute carrying UK but not PK. -/
def createTableSpec (e : Entity) : String :=
  let cols := e.attributes.map createTableColumnDefSpec
  let pkCols := (e.attributes.filter (fun a => a.keys.contains AttributeKey.PK)).map
    (fun a => "\"" ++ toColumnName a.name ++ "\"")
  let pkConstraint : List String :=
    match pkCols with
    | [] => []
    | _ => ["  PRIMARY KEY (" ++ joinSep ", " pkCols ++ ")"]
  let ukConstraints := (e.attributes.filter
      (fun a => a.keys.contains AttributeKey.UK && !(a.keys.contains AttributeKey.PK))).map
    (fun a => "  UNIQUE (\"" ++ toColumnName a.name ++ "\")")
  "CREATE TABLE IF NOT EXISTS \"" ++ toTableName e.name ++ "\" (\n" ++
    joinSep ",\n" (cols ++ pkConstraint ++ ukConstraints) ++ "\n);"

theorem foldl_push (f : Attribute → String) (l : List Attribute) :
    ∀ acc : List String, l.foldl (fun acc a => acc ++ [f a]) acc = acc ++ l.map f := by
  induction l with
  | nil => intro acc; simp
  | cons a t ih => intro acc; simp [ih]

theorem columnDefOf_eq_spec (a : Attribute) : columnDefOf a = createTableColumnDefSpec a := by
  unfold columnDefOf createTableColumnDefSpec
  split
  · rfl
  · exact (str_append_empty _).symm

/-- C3.  `generateCreateTable` emits exactly the statement described by the
claim (see `createTableSpec`), and on the example CUSTOMER entity it
yields a PRIMARY KEY on `customer_id` and a UNIQUE constraint on
`email`. -/
theorem c3_create_table :
    (∀ e, generateCreateTable e = createTableSpec e) ∧
    generateCreateTable
      { name := "CUSTOMER", aliasName := none,
        attributes :=
          [{ name := "customer_id", type := "int", keys := [.PK], comment := none },
           { name := "email", type := "string", keys := [.UK], comment := none }] } =
      "CREATE TABLE IF NOT EXISTS \"customer\" (\n  \"customer_id\" INTEGER NOT NULL,\n  \"email\" VARCHAR(255),\n  PRIMARY KEY (\"customer_id\"),\n  UNIQUE (\"email\")\n);" := by
  constructor
  · intro e
    unfold generateCreateTable createTableSpec
    rw [foldl_push columnDefOf, funext columnDefOf_eq_spec]
    cases hpk : (e.attributes.filter (fun a => a.keys.contains AttributeKey.PK)).map
        (fun a => "\"" ++ toColumnName a.name ++ "\"") with
    | nil => simp
    | cons p ps => simp
  · decide

/-! ## Claim C7: selectAll clause structure -/

/-- `selectAll` output as worded by the (amended) claim: the base
statement, an ORDER BY clause exactly when `orderBy` is present and
non-empty (with `orderDir` defaulting to `ASC`), then `LIMIT` and
`OFFSET` clauses in that order exactly when the respective option is
present and non-zero, numbered `$1`, `$2`, ... in clause order, each
pushing its value onto `params`. -/
def specSelectAll (config : QueryConfig) (o : SelectAllOptions) : SqlQuery :=
  { sql := "SELECT * FROM \"" ++ config.tableName ++ "\"" ++
      (if jsTruthyStr o.orderBy then
        " ORDER BY \"" ++ o.orderBy.getD "" ++ "\" " ++ (o.orderDir.getD OrderDir.ASC).toStr
       else "") ++
      (if jsTruthyInt o.limit then " LIMIT $" ++ Nat.repr 1 else "") ++
      (if jsTruthyInt o.offset then
        (if jsTruthyInt o.limit then " OFFSET $" ++ Nat.repr 2 else " OFFSET $" ++ Nat.repr 1)
       else ""),
    params :=
      (if jsTruthyInt o.limit then [Value.vInt (o.limit.getD 0)] else []) ++
      (if jsTruthyInt o.offset then [Value.vInt (o.offset.getD 0)] else []) }

theorem selectAll_eq_spec (config : QueryConfig) (o : SelectAllOptions) :
    selectAll config o = specSelectAll config o := by
  unfold selectAll specSelectAll
  obtain ⟨lim, off, ob, od⟩ := o
  simp only
  cases h1 : jsTruthyStr ob <;> cases h2 : jsTruthyInt lim <;> cases h3 : jsTruthyInt off <;>
    simp only [h1, h2, h3, if_true, if_false, Bool.false_eq_true, Bool.true_eq_false] <;>
    refine congrArg₂ SqlQuery.mk ?_ (by simp) <;>
    rw [string_eq_iff_data] <;>
    simp only [data_append, List.append_assoc, List.append_right_inj,
      List.append_nil, List.nil_append,
      List.length_nil, List.length_append, List.length_cons, Nat.zero_add]

/-- C7 counterexample: with `limit = 0` (present but falsy) no LIMIT
clause is appended and no parameter is pushed, so the clause is not
appended "exactly when limit is present". -/
theorem c7_counterexample :
    (selectAll { tableName := "t", columns := [], primaryKey := none }
      { limit := some 0, offset := none, orderBy := none, orderDir := none }).sql =
      "SELECT * FROM \"t\"" ∧
    (selectAll { tableName := "t", columns := [], primaryKey := none }
      { limit := some 0, offset := none, orderBy := none, orderDir := none }).params = [] ∧
    ({ limit := some 0, offset := none, orderBy := none, orderDir := none } :
      SelectAllOptions).limit.isSome = true := by
  decide

/-- C7 (amended).  `selectAll` returns exactly the statement described by
`specSelectAll`: clauses are appended when the corresponding option is
present and truthy (non-zero limit/offset, non-empty orderBy), in the
order ORDER BY, LIMIT, OFFSET, with positional placeholders numbered in
clause order and the values pushed onto `params`. -/
theorem c7_select_all_clauses (config : QueryConfig) (o : SelectAllOptions) :
    selectAll config o = specSelectAll config o :=
  selectAll_eq_spec config o

/-! ## Claim C4: user data and SQL text -/

/-- C4 counterexample: the `orderBy` option is interpolated directly into
the SQL text, so the SQL of `selectAll` is not independent of the
user-supplied option values. -/
theorem c4_counterexample :
    (selectAll { tableName := "t", columns := [], primaryKey := none }
      { limit := none, offset := none, orderBy := some "a", orderDir := none }).sql ≠
    (selectAll { tableName := "t", columns := [], primaryKey := none }
      { limit := none, offset := none, orderBy := some "b", orderDir := none }).sql := by
  decide

/-- C4 (amended).  User-supplied id values, record values and
limit/offset values never reach the SQL text (they are passed through
`params`): the `selectById`/`deleteById` SQL is independent of the id,
`count` takes no parameters, the `insert`/`update` SQL depends only on
the record's key list (filtered against the known columns), and the
`selectAll` SQL depends only on `orderBy`, `orderDir` and the truthiness
of `limit` and `offset` — `orderBy` and `orderDir` themselves are
interpolated into the text. -/
theorem c4_parameterization :
    (∀ (config : QueryConfig) (i j : Value), (selectById config i).sql = (selectById config j).sql) ∧
    (∀ (config : QueryConfig) (i : Value), (selectById config i).params = [i]) ∧
    (∀ (config : QueryConfig) (i j : Value), (deleteById config i).sql = (deleteById config j).sql) ∧
    (∀ (config : QueryConfig) (i : Value), (deleteById config i).params = [i]) ∧
    (∀ config : QueryConfig, (count config).params = []) ∧
    (∀ (config : QueryConfig) (d1 d2 : List (String × Value)),
      d1.map Prod.fst = d2.map Prod.fst → (insert config d1).sql = (insert config d2).sql) ∧
    (∀ (config : QueryConfig) (i j : Value) (d1 d2 : List (String × Value)),
      d1.map Prod.fst = d2.map Prod.fst → (update config i d1).sql = (update config j d2).sql) ∧
    (∀ (config : QueryConfig) (o1 o2 : SelectAllOptions),
      o1.orderBy = o2.orderBy → o1.orderDir = o2.orderDir →
      jsTruthyInt o1.limit = jsTruthyInt o2.limit →
      jsTruthyInt o1.offset = jsTruthyInt o2.offset →
      (selectAll config o1).sql = (selectAll config o2).sql) := by
  refine ⟨fun _ _ _ => rfl, fun _ _ => rfl, fun _ _ _ => rfl, fun _ _ => rfl, fun _ => rfl,
    ?_, ?_, ?_⟩
  · intro config d1 d2 h
    unfold insert
    rw [h]
  · intro config i j d1 d2 h
    unfold update
    rw [h]
  · intro config o1 o2 hob hod hlim hoff
    rw [selectAll_eq_spec, selectAll_eq_spec]
    unfold specSelectAll
    rw [hob, hod, hlim, hoff]

/-- C4 witness: two updates with the same record keys but different values
and ids produce identical SQL text. -/
theorem c4_witness :
    (update { tableName := "t", columns := ["a"], primaryKey := none }
      (Value.vInt 1) [("a", Value.vInt 5)]).sql =
    (update { tableName := "t", columns := ["a"], primaryKey := none }
      (Value.vInt 2) [("a", Value.vInt 6)]).sql :=
  c4_parameterization.2.2.2.2.2.2.1 _ _ _ _ _ rfl

/-! ## Claim C5: attribute-line error recovery -/

/-- C5 counterexample: the recorded error string capitalizes "Unable" and
wraps the offending line in double quotes, so it differs from the claimed
format `Line <n>: unable to parse attribute: <text>`. -/
theorem c5_counterexample :
    (parseERDiagram "erDiagram\nA \x7b\n?\n\x7d").errors =
      some ["Line 3: Unable to parse attribute: \"?\""] ∧
    ("Line 3: Unable to parse attribute: \"?\"" : String) ≠
      "Line 3: unable to parse attribute: ?" := by
  constructor
  · rfl
  · decide

/-- C5 (amended).  A line inside an entity block that fails the attribute
pattern appends exactly the error
`Line <n>: Unable to parse attribute: "<text>"` (with `<n>` the 1-based
line number and `<text>` the trimmed line) and leaves the rest of the
state unchanged, so parsing continues; on a concrete input the attributes
of the well-formed lines before and after the bad line are still
collected and the schema is still returned. -/
theorem c5_attribute_error_recovery :
    (∀ (st : ParserState) (n : Nat) (line : String) (cur : Entity),
      jsTrim line = line →
      st.inERDiagram = true →
      st.inEntityBlock = true →
      st.currentEntity = some cur →
      isEmptyLine line = false →
      isCommentLine line = false →
      isHeaderLine line = false →
      isDirectionLine line = false →
      isBlockEndLine line = false →
      matchAttribute line = none →
      processLine st n line =
        { st with errors := st.errors ++
            ["Line " ++ Nat.repr n ++ ": Unable to parse attribute: \"" ++ line ++ "\""] }) ∧
    parseERDiagram "erDiagram\nA \x7b\nint x\n?\nstring y\n\x7d" =
      { success := false,
        schema := some
          { entities :=
              [{ name := "A", aliasName := none,
                 attributes :=
                   [{ name := "x", type := "int", keys := [], comment := none },
                    { name := "y", type := "string", keys := [], comment := none }] }],
            relationships := [] },
        errors := some ["Line 4: Unable to parse attribute: \"?\""] } := by
  constructor
  · intro st n line cur htrim her hblk hcur hempty hcomment hheader hdir hend hattr
    unfold processLine processTrimmed
    simp only [htrim, hempty, hcomment, hheader, hdir, hend, hcur, her, hblk, hattr,
      Bool.or_self, Bool.not_true, Bool.false_eq_true, if_false, if_true]
    rfl
  · rfl

/-- C5 witness: the step lemma applied to a concrete state and line. -/
theorem c5_witness :
    processLine
      { entities := [], relationships := [], errors := [], inERDiagram := true,
        currentEntity := some { name := "A", aliasName := none, attributes := [] },
        inEntityBlock := true } 7 "?" =
    { entities := [], relationships := [],
      errors := ["Line 7: Unable to parse attribute: \"?\""], inERDiagram := true,
      currentEntity := some { name := "A", aliasName := none, attributes := [] },
      inEntityBlock := true } :=
  c5_attribute_error_recovery.1 _ 7 "?" { name := "A", aliasName := none, attributes := [] }
    rfl rfl rfl rfl rfl rfl rfl rfl rfl rfl

/-! ## Claim C2: foreign-key inference -/

theorem contains_iff_mem {α} [DecidableEq α] (l : List α) (a : α) :
    l.contains a = true ↔ a ∈ l := by
  simp [List.contains]

theorem stripIdSuffix_eq_some (s b : String) :
    stripIdSuffix s = some b ↔ s = b ++ "_id" := by
  constructor
  · intro h
    cases s with
    | mk l =>
      unfold stripIdSuffix at h
      split at h
      case h_1 restRev heq =>
        injection h with h
        subst h
        rw [string_eq_iff_data, data_append]
        have := congrArg List.reverse heq
        simp only [List.reverse_reverse] at this
        rw [this]
        simp
      case h_2 => exact absurd h (by simp)
  · intro h
    subst h
    cases b with
    | mk lb =>
      show stripIdSuffix ⟨lb ++ ['_', 'i', 'd']⟩ = some ⟨lb⟩
      simp [stripIdSuffix, List.reverse_append]

theorem fkStatementOf_eq_some (m : List (String × Entity)) (t : String) (a : Attribute)
    (s : String) :
    fkStatementOf m t a = some s ↔
      ∃ base p, toColumnName a.name = base ++ "_id" ∧
        m.find? (fun q => toTableName q.1 == base) = some p ∧
        s = fkAlterStatement t (toColumnName a.name) base (refColumnOf p.2) := by
  unfold fkStatementOf
  simp only [Option.bind_eq_some, Option.map_eq_some', stripIdSuffix_eq_some]
  constructor
  · rintro ⟨base, hcol, p, hfind, hs⟩
    exact ⟨base, p, hcol, hfind, hs.symm⟩
  · rintro ⟨base, p, hcol, hfind, hs⟩
    exact ⟨base, hcol, p, hfind, hs.symm⟩

/-- C2 counterexample: entity `CustomerOrder` has normalized table name
`customer_order`, and the FK column `customer_order_id` strips to exactly
that name, yet no foreign-key statement is emitted — the code compares
against `toTableName` of the *lowercased* entity name
(`customerorder`), not against the normalized entity name. -/
theorem c2_counterexample :
    generateForeignKeys
      { entities :=
          [{ name := "CustomerOrder", aliasName := none,
             attributes := [{ name := "id", type := "int", keys := [.PK], comment := none }] },
           { name := "Line", aliasName := none,
             attributes :=
               [{ name := "customer_order_id", type := "int", keys := [.FK], comment := none }] }],
        relationships := [] } = [] ∧
    toTableName "CustomerOrder" = "customer_order" ∧
    toColumnName "customer_order_id" = "customer_order" ++ "_id" := by
  refine ⟨rfl, rfl, ?_⟩
  decide

/-- C2 (amended).  A foreign-key statement is emitted for an FK attribute
exactly when its normalized column name ends in `_id` and the first entry
of the lowercased-name entity map normalizes to the stripped name; the
referenced column is that entity's PK column or `id`, the constraint is
`fk_<table>_<column>` with ON DELETE CASCADE, and no match yields no
statement and no error.  The `customer_id FK` on `Order` with entity
`Customer` example produces the expected reference to table `customer` on
its PK column. -/
theorem c2_fk_inference :
    (∀ (schema : DatabaseSchema) (s : String),
      s ∈ generateForeignKeys schema ↔
        ∃ entity, entity ∈ schema.entities ∧ ∃ a, a ∈ entity.attributes ∧
          AttributeKey.FK ∈ a.keys ∧ ∃ base p,
            toColumnName a.name = base ++ "_id" ∧
            (entityMapOf schema).find? (fun q => toTableName q.1 == base) = some p ∧
            s = fkAlterStatement (toTableName entity.name) (toColumnName a.name) base
                  (refColumnOf p.2)) ∧
    generateForeignKeys
      { entities :=
          [{ name := "Customer", aliasName := none,
             attributes := [{ name := "customer_id", type := "int", keys := [.PK], comment := none }] },
           { name := "Order", aliasName := none,
             attributes :=
               [{ name := "order_id", type := "int", keys := [.PK], comment := none },
                { name := "customer_id", type := "int", keys := [.FK], comment := none }] }],
        relationships := [] } =
      ["ALTER TABLE \"order\" ADD CONSTRAINT \"fk_order_customer_id\" FOREIGN KEY (\"customer_id\") REFERENCES \"customer\" (\"customer_id\") ON DELETE CASCADE;"] := by
  constructor
  · intro schema s
    unfold generateForeignKeys
    simp only [List.mem_flatMap, List.mem_filterMap, List.mem_filter, fkStatementOf_eq_some,
      contains_iff_mem]
    constructor
    · rintro ⟨entity, hent, a, ⟨ha, hfk⟩, rest⟩
      exact ⟨entity, hent, a, ha, hfk, rest⟩
    · rintro ⟨entity, hent, a, ha, hfk, rest⟩
      exact ⟨entity, hent, a, ⟨ha, hfk⟩, rest⟩
  · rfl

/-- C2 witness: the Customer/Order example instantiates the
characterization. -/
theorem c2_witness :
    ("ALTER TABLE \"order\" ADD CONSTRAINT \"fk_order_customer_id\" FOREIGN KEY (\"customer_id\") REFERENCES \"customer\" (\"customer_id\") ON DELETE CASCADE;" : String) ∈
    generateForeignKeys
      { entities :=
          [{ name := "Customer", aliasName := none,
             attributes := [{ name := "customer_id", type := "int", keys := [.PK], comment := none }] },
           { name := "Order", aliasName := none,
             attributes :=
               [{ name := "order_id", type := "int", keys := [.PK], comment := none },
                { name := "customer_id", type := "int", keys := [.FK], comment := none }] }],
        relationships := [] } := by
  rw [c2_fk_inference.2]
  exact List.mem_singleton.mpr rfl

/-! ## Claim C9: parser-produced schema invariants -/

theorem entMapHas_iff (m : List (String × Entity)) (k : String) :
    entMapHas m k = true ↔ k ∈ m.map Prod.fst := by
  simp only [entMapHas, List.any_eq_true, List.mem_map, beq_iff_eq]

theorem entMapSet_keys (m : List (String × Entity)) (k : String) (v : Entity) :
    (entMapSet m k v).map Prod.fst =
      if k ∈ m.map Prod.fst then m.map Prod.fst else m.map Prod.fst ++ [k] := by
  induction m with
  | nil => simp [entMapSet]
  | cons p rest ih =>
    simp only [entMapSet]
    cases hpk : p.1 == k with
    | true =>
      have : p.1 = k := by simpa using hpk
      simp [this]
    | false =>
      have hne : ¬(k = p.1) := by
        intro h; rw [h] at hpk; simp at hpk
      simp only [Bool.false_eq_true, if_false, List.map_cons, ih, List.mem_cons, hne, false_or]
      by_cases hk : k ∈ rest.map Prod.fst <;> simp [hk]

theorem entMapSet_mem_keys (m : List (String × Entity)) (k a : String) (v : Entity)
    (h : a ∈ m.map Prod.fst) : a ∈ (entMapSet m k v).map Prod.fst := by
  rw [entMapSet_keys]
  split
  · exact h
  · exact List.mem_append_left _ h

theorem entMapSet_mem_self (m : List (String × Entity)) (k : String) (v : Entity) :
    k ∈ (entMapSet m k v).map Prod.fst := by
  rw [entMapSet_keys]
  split
  · assumption
  · exact List.mem_append_right _ (List.mem_singleton.mpr rfl)

theorem entMapSet_nodup (m : List (String × Entity)) (k : String) (v : Entity)
    (h : (m.map Prod.fst).Nodup) : ((entMapSet m k v).map Prod.fst).Nodup := by
  rw [entMapSet_keys]
  split
  · exact h
  · rw [List.nodup_append]
    refine ⟨h, List.nodup_singleton _, ?_⟩
    intro a ha hmem
    rw [List.mem_singleton] at hmem
    subst hmem
    exact absurd ha (by assumption)

theorem entMapSet_names (m : List (String × Entity)) (k : String) (v : Entity)
    (h : ∀ p ∈ m, (Prod.snd p).name = p.1) (hv : v.name = k) :
    ∀ p ∈ entMapSet m k v, (Prod.snd p).name = p.1 := by
  induction m with
  | nil =>
    intro p hp
    simp only [entMapSet, List.mem_singleton] at hp
    subst hp
    exact hv
  | cons q rest ih =>
    intro p hp
    simp only [entMapSet] at hp
    split at hp
    · rcases List.mem_cons.mp hp with rfl | hmem
      · have : q.1 = k := by simpa using (by assumption : (q.1 == k) = true)
        simpa [this] using hv
      · exact h _ (List.mem_cons_of_mem _ hmem)
    · rcases List.mem_cons.mp hp with rfl | hmem
      · exact h _ (List.mem_cons_self _ _)
      · exact ih (fun r hr => h r (List.mem_cons_of_mem _ hr)) _ hmem

/-- The loop invariant of `parseERDiagram`: entity-table keys are distinct,
every stored entity's name equals its key, and every recorded relationship
references keys present in the table. -/
def stateInv (st : ParserState) : Prop :=
  (st.entities.map Prod.fst).Nodup ∧
  (∀ p ∈ st.entities, (Prod.snd p).name = p.1) ∧
  (∀ r ∈ st.relationships,
    r.firstEntity ∈ st.entities.map Prod.fst ∧ r.secondEntity ∈ st.entities.map Prod.fst)

theorem ensureEntity_nodup (m : List (String × Entity)) (n : String)
    (h : (m.map Prod.fst).Nodup) : ((ensureEntity m n).map Prod.fst).Nodup := by
  unfold ensureEntity
  split
  · exact h
  · exact entMapSet_nodup _ _ _ h

theorem ensureEntity_names (m : List (String × Entity)) (n : String)
    (h : ∀ p ∈ m, (Prod.snd p).name = p.1) :
    ∀ p ∈ ensureEntity m n, (Prod.snd p).name = p.1 := by
  unfold ensureEntity
  split
  · exact h
  · exact entMapSet_names _ _ _ h rfl

theorem ensureEntity_mono (m : List (String × Entity)) (n a : String)
    (h : a ∈ m.map Prod.fst) : a ∈ (ensureEntity m n).map Prod.fst := by
  unfold ensureEntity
  split
  · exact h
  · exact entMapSet_mem_keys _ _ _ _ h

theorem ensureEntity_mem_self (m : List (String × Entity)) (n : String) :
    n ∈ (ensureEntity m n).map Prod.fst := by
  unfold ensureEntity
  split
  · exact (entMapHas_iff _ _).mp (by assumption)
  · exact entMapSet_mem_self _ _ _

theorem handleRelationship_inv (st : ParserState)
    (firstTok leftCard connTok rightCard secondTok label : String) (h : stateInv st) :
    stateInv (handleRelationship st firstTok leftCard connTok rightCard secondTok label) := by
  obtain ⟨hnodup, hnames, hrels⟩ := h
  refine ⟨?_, ?_, ?_⟩
  · exact ensureEntity_nodup _ _ (ensureEntity_nodup _ _ hnodup)
  · exact ensureEntity_names _ _ (ensureEntity_names _ _ hnames)
  · intro r hrmem
    rcases List.mem_append.mp hrmem with hold | hnew
    · obtain ⟨h1, h2⟩ := hrels r hold
      exact ⟨ensureEntity_mono _ _ _ (ensureEntity_mono _ _ _ h1),
        ensureEntity_mono _ _ _ (ensureEntity_mono _ _ _ h2)⟩
    · rw [List.mem_singleton] at hnew
      subst hnew
      exact ⟨ensureEntity_mono _ _ _ (ensureEntity_mem_self _ _), ensureEntity_mem_self _ _⟩

theorem handleStandalone_inv (st : ParserState) (nameTok : String) (aliasTok : Option String)
    (h : stateInv st) : stateInv (handleStandalone st nameTok aliasTok) := by
  obtain ⟨hnodup, hnames, hrels⟩ := h
  unfold handleStandalone
  split
  · exact ⟨hnodup, hnames, hrels⟩
  · refine ⟨entMapSet_nodup _ _ _ hnodup, entMapSet_names _ _ _ hnames rfl, ?_⟩
    intro r hrmem
    obtain ⟨h1, h2⟩ := hrels r hrmem
    exact ⟨entMapSet_mem_keys _ _ _ _ h1, entMapSet_mem_keys _ _ _ _ h2⟩

theorem handleTopLevel_inv (st : ParserState) (line : String) (h : stateInv st) :
    stateInv (handleTopLevel st line) := by
  unfold handleTopLevel
  split
  · exact ⟨h.1, h.2.1, h.2.2⟩
  · split
    · exact handleRelationship_inv _ _ _ _ _ _ _ h
    · split
      · exact handleStandalone_inv _ _ _ h
      · exact h

theorem processLine_inv (st : ParserState) (n : Nat) (l : String) (h : stateInv st) :
    stateInv (processLine st n l) := by
  obtain ⟨hnodup, hnames, hrels⟩ := h
  unfold processLine processTrimmed
  split
  · exact ⟨hnodup, hnames, hrels⟩
  split
  · exact ⟨hnodup, hnames, hrels⟩
  split
  · exact ⟨hnodup, hnames, hrels⟩
  split
  · exact ⟨hnodup, hnames, hrels⟩
  split
  · split
    · next e _ =>
      refine ⟨entMapSet_nodup _ _ _ hnodup, entMapSet_names _ _ _ hnames rfl, ?_⟩
      intro r hrmem
      obtain ⟨h1, h2⟩ := hrels r hrmem
      exact ⟨entMapSet_mem_keys _ _ _ _ h1, entMapSet_mem_keys _ _ _ _ h2⟩
    · exact ⟨hnodup, hnames, hrels⟩
  · split
    · split
      · split
        · exact ⟨hnodup, hnames, hrels⟩
        · exact ⟨hnodup, hnames, hrels⟩
      · exact handleTopLevel_inv st (jsTrim l) ⟨hnodup, hnames, hrels⟩
    · exact handleTopLevel_inv st (jsTrim l) ⟨hnodup, hnames, hrels⟩

theorem runLines_inv (ls : List String) (n : Nat) (st : ParserState) (h : stateInv st) :
    stateInv (runLines ls n st) := by
  induction ls generalizing n st with
  | nil => exact h
  | cons l rest ih => exact ih (n + 1) _ (processLine_inv st n l h)

theorem indexOf_append_cons (pre : List String) (n : String) (rest : List String)
    (hn : n ∉ pre) : (pre ++ n :: rest).indexOf n = pre.length := by
  induction pre with
  | nil => simp [List.indexOf_cons_self]
  | cons p ps ih =>
    simp only [List.mem_cons, not_or] at hn
    obtain ⟨hnp, hnps⟩ := hn
    show ((p :: (ps ++ n :: rest)).indexOf n) = ps.length + 1
    rw [List.indexOf_cons_ne _ (fun h => hnp h.symm), ih hnps]

theorem dupScan_nil_of_nodup (full : List String) (h : full.Nodup) :
    ∀ (suf pre : List String), full = pre ++ suf → dupScan full suf pre.length = [] := by
  intro suf
  induction suf with
  | nil => intro pre _; rfl
  | cons nm rest ih =>
    intro pre heq
    have hmem : nm ∉ pre := by
      intro hin
      subst heq
      have hdis := (List.nodup_append.mp h).2.2
      exact hdis hin (List.mem_cons_self _ _)
    have hidx : full.indexOf nm = pre.length := by
      rw [heq]; exact indexOf_append_cons pre nm rest hmem
    show (if full.indexOf nm ≠ pre.length then [nm] else []) ++
      dupScan full rest (pre.length + 1) = []
    rw [if_neg (by simp [hidx])]
    have : pre.length + 1 = (pre ++ [nm]).length := by simp
    rw [List.nil_append, this]
    exact ih (pre ++ [nm]) (by rw [heq]; simp)

/-- C9.  Every schema produced by `parseERDiagram` has pairwise-distinct
entity names, every relationship references entity names present in the
entity list, and consequently the validator's duplicate-entity and
dangling-reference checks contribute no errors: `validateERDiagram`
returns exactly the parse errors plus (at most) the missing-header
error. -/
theorem c9_parser_schema_invariants (input : String) (sch : DatabaseSchema)
    (h : (parseERDiagram input).schema = some sch) :
    (sch.entities.map Entity.name).Nodup ∧
    (∀ r ∈ sch.relationships,
      (∃ e ∈ sch.entities, e.name = r.firstEntity) ∧
      (∃ e ∈ sch.entities, e.name = r.secondEntity)) ∧
    (validateERDiagram input).errors =
      (match (parseERDiagram input).errors with
        | some es => es
        | none => []) ++
      (if hasSubstr "erdiagram".data (strLower input).data then []
       else ["Diagram does not contain \"erDiagram\" declaration"]) := by
  have hinv0 : stateInv initState := ⟨List.nodup_nil, by simp [initState], by simp [initState]⟩
  have hinv : stateInv (runLines (splitLines input) 1 initState) :=
    runLines_inv _ _ _ hinv0
  set final := runLines (splitLines input) 1 initState with hfinal
  obtain ⟨hnodup, hnames, hrels⟩ := hinv
  set entities2 : List (String × Entity) :=
    (match final.currentEntity with
     | some e => entMapSet final.entities e.name e
     | none => final.entities) with hentities2
  have hkey : (entities2.map Prod.fst).Nodup ∧ (∀ p ∈ entities2, (Prod.snd p).name = p.1) ∧
      (∀ r ∈ final.relationships,
        r.firstEntity ∈ entities2.map Prod.fst ∧ r.secondEntity ∈ entities2.map Prod.fst) := by
    rw [hentities2]
    cases final.currentEntity with
    | some e =>
      exact ⟨entMapSet_nodup _ _ _ hnodup, entMapSet_names _ _ _ hnames rfl,
        fun r hr => ⟨entMapSet_mem_keys _ _ _ _ (hrels r hr).1,
          entMapSet_mem_keys _ _ _ _ (hrels r hr).2⟩⟩
    | none => exact ⟨hnodup, hnames, hrels⟩
  obtain ⟨hnodup2, hnames2, hrels2⟩ := hkey
  have hsch : sch = DatabaseSchema.mk (entities2.map Prod.snd) final.relationships := by
    have hps : (parseERDiagram input).schema =
        some (DatabaseSchema.mk (entities2.map Prod.snd) final.relationships) := rfl
    rw [hps] at h
    exact ((Option.some.injEq _ _).mp h).symm
  have hnameskeys : entities2.map (fun p => (Prod.snd p).name) = entities2.map Prod.fst :=
    List.map_congr_left hnames2
  have hnamesList : sch.entities.map Entity.name = entities2.map Prod.fst := by
    rw [hsch]
    show (entities2.map Prod.snd).map Entity.name = entities2.map Prod.fst
    rw [List.map_map]
    exact hnameskeys
  have hnodup_names : (sch.entities.map Entity.name).Nodup := by
    rw [hnamesList]; exact hnodup2
  have hrel_names : ∀ r ∈ sch.relationships,
      (∃ e ∈ sch.entities, e.name = r.firstEntity) ∧
      (∃ e ∈ sch.entities, e.name = r.secondEntity) := by
    intro r hr
    have hr2 : r ∈ final.relationships := by rw [hsch] at hr; exact hr
    obtain ⟨h1, h2⟩ := hrels2 r hr2
    constructor
    · obtain ⟨p, hp, hpk⟩ := List.mem_map.mp h1
      refine ⟨p.2, ?_, by rw [hnames2 p hp, hpk]⟩
      rw [hsch]
      exact List.mem_map.mpr ⟨p, hp, rfl⟩
    · obtain ⟨p, hp, hpk⟩ := List.mem_map.mp h2
      refine ⟨p.2, ?_, by rw [hnames2 p hp, hpk]⟩
      rw [hsch]
      exact List.mem_map.mpr ⟨p, hp, rfl⟩
  refine ⟨hnodup_names, hrel_names, ?_⟩
  have hdup : dupScan (sch.entities.map Entity.name) (sch.entities.map Entity.name) 0 = [] := by
    have := dupScan_nil_of_nodup (sch.entities.map Entity.name) hnodup_names
      (sch.entities.map Entity.name) [] rfl
    simpa using this
  have hdup' : dupErrors (sch.entities.map Entity.name) = [] := by
    unfold dupErrors
    rw [hdup]
    simp
  have hdang' : danglingErrors (sch.entities.map Entity.name) sch.relationships = [] := by
    unfold danglingErrors
    rw [List.flatMap_eq_nil_iff]
    intro r hr
    obtain ⟨⟨e1, he1, hn1⟩, ⟨e2, he2, hn2⟩⟩ := hrel_names r hr
    have hc1 : (sch.entities.map Entity.name).contains r.firstEntity = true := by
      rw [contains_iff_mem]
      exact List.mem_map.mpr ⟨e1, he1, hn1⟩
    have hc2 : (sch.entities.map Entity.name).contains r.secondEntity = true := by
      rw [contains_iff_mem]
      exact List.mem_map.mpr ⟨e2, he2, hn2⟩
    rw [hc1, hc2]
    simp
  unfold validateERDiagram
  rw [show (parseERDiagram input).schema = some sch from h]
  simp only [hdup', hdang', List.append_nil]
  show errorsWithHeader input = _
  unfold errorsWithHeader parseErrorList
  split <;> simp

/-- The schema parsed from the concrete C9 witness input. -/
def c9ExampleSchema : DatabaseSchema :=
  { entities :=
      [{ name := "CUSTOMER", aliasName := none, attributes := [] },
       { name := "ORDER", aliasName := none, attributes := [] }],
    relationships :=
      [{ firstEntity := "CUSTOMER", secondEntity := "ORDER",
         firstCardinality := .EXACTLY_ONE, secondCardinality := .ZERO_OR_MORE,
         identifying := true, label := "places" }] }

/-- C9 witness: on a concrete parse with an auto-created entity, both
relationship endpoints exist in the entity list. -/
theorem c9_witness :
    (∃ e ∈ c9ExampleSchema.entities, e.name = "CUSTOMER") ∧
    (∃ e ∈ c9ExampleSchema.entities, e.name = "ORDER") :=
  (c9_parser_schema_invariants "erDiagram\nCUSTOMER ||--o\x7b ORDER : \"places\""
      c9ExampleSchema rfl).2.1
    { firstEntity := "CUSTOMER", secondEntity := "ORDER",
      firstCardinality := .EXACTLY_ONE, secondCardinality := .ZERO_OR_MORE,
      identifying := true, label := "places" }
    (by decide)

end MermaidER
